import Mathlib

/-! azure-container-networking: CNS contract, CNS client and NPM namespace cache.

A shallow embedding of

* `cns/NetworkContainerContract.go`: `NetworkContainerRequestPolicies.Validate`;
* `cns/cnsclient/cnsclient.go`: `InitCnsClient`, `GetCnsClient`,
  `CNSClient.GetNetworkConfiguration`;
* the namespace part of the NPM entity cache exercised by `npm/namespace_test.go`.

Go strings are embedded as Lean strings (sequences of runes), `error` values as
`Option`, with `none` for `nil`.
-/

/-! ## Go standard library pieces used by the contract -/

namespace strings

/-- Go `unicode.IsSpace`: the Latin-1 spaces and the runes of the Unicode
`White_Space` property. -/
def IsSpace (r : Char) : Bool :=
  let n := r.toNat
  n == 0x09 || n == 0x0A || n == 0x0B || n == 0x0C || n == 0x0D || n == 0x20 ||
  n == 0x85 || n == 0xA0 || n == 0x1680 || (0x2000 ≤ n && n ≤ 0x200A) ||
  n == 0x2028 || n == 0x2029 || n == 0x202F || n == 0x205F || n == 0x3000

/-- Go `strings.TrimSpace`: the string without its leading and trailing white space. -/
def TrimSpace (s : String) : String :=
  ⟨((s.data.dropWhile IsSpace).reverse.dropWhile IsSpace).reverse⟩

/-- Go `len` on a string: its number of bytes in UTF-8. -/
def len (s : String) : Nat := s.utf8ByteSize

/-- One step of the rune loop of Go `strings.EqualFold`: do the runes `sr` and `tr`
match under simple case folding. After the equality test the two runes are ordered;
two ASCII runes match when they are the two cases of one letter; otherwise the orbit
of the smaller rune under `unicode.SimpleFold` is searched for the larger one. The
orbits that start at an ASCII rune are written out (`K k U+212A`, `S s U+017F`, and
the two-element orbits of the other letters, which hold no rune above `0x7F`); for
two runes that are both above `0x7F` the search is the table `unicodeFold`, which is
Unicode data and not part of this repository. -/
def foldRune (unicodeFold : Char → Char → Bool) (sr tr : Char) : Bool :=
  if tr = sr then true
  else
    let lo := if tr.toNat < sr.toNat then tr else sr
    let hi := if tr.toNat < sr.toNat then sr else tr
    if hi.toNat < 0x80 then
      decide (0x41 ≤ lo.toNat ∧ lo.toNat ≤ 0x5A ∧ hi.toNat = lo.toNat + 0x20)
    else if lo.toNat < 0x80 then
      ((lo.toNat == 0x4B || lo.toNat == 0x6B) && hi.toNat == 0x212A) ||
      ((lo.toNat == 0x53 || lo.toNat == 0x73) && hi.toNat == 0x17F)
    else unicodeFold lo hi

/-- The rune loop of Go `strings.EqualFold` over the runes of both strings. -/
def equalFoldRunes (unicodeFold : Char → Char → Bool) : List Char → List Char → Bool
  | [], t => t.isEmpty
  | _ :: _, [] => false
  | sr :: s, tr :: t => foldRune unicodeFold sr tr && equalFoldRunes unicodeFold s t

/-- Go `strings.EqualFold`: equality under simple Unicode case folding. -/
def EqualFold (unicodeFold : Char → Char → Bool) (s t : String) : Bool :=
  equalFoldRunes unicodeFold s.data t.data

end strings

/-! ## `cns/NetworkContainerContract.go` -/

namespace cns

/-- The route constant `GetNetworkContainerByOrchestratorContext`. -/
def GetNetworkContainerByOrchestratorContext : String :=
  "/network/getnetworkcontainerbyorchestratorcontext"

/-- The struct `NetworkContainerRequestPolicies`; the field `Type` of the source is
`PolicyType` here, and the raw JSON of `Settings` is kept as text. -/
structure NetworkContainerRequestPolicies where
  PolicyType : String
  EndpointType : String
  Settings : String
deriving DecidableEq, Repr

/-- The struct `ValidAclPolicySetting`; `Priority` is a `uint16`. -/
structure ValidAclPolicySetting where
  Protocols : String := ""
  Action : String := ""
  Direction : String := ""
  LocalAddresses : String := ""
  RemoteAddresses : String := ""
  LocalPorts : String := ""
  RemotePorts : String := ""
  RuleType : String := ""
  Priority : Nat := 0
deriving DecidableEq, Repr

def ActionTypeAllow : String := "Allow"

def ActionTypeBlock : String := "Block"

def DirectionTypeIn : String := "In"

def DirectionTypeOut : String := "Out"

/-- The method `NetworkContainerRequestPolicies.Validate`. The receiver is a pointer
and may be nil (`none`); the result is the returned error, `none` for nil.
`Unmarshal` is `json.Unmarshal` into a `ValidAclPolicySetting`. -/
def Validate (unicodeFold : Char → Char → Bool)
    (Unmarshal : String → Except String ValidAclPolicySetting)
    (networkContainerRequestPolicy : Option NetworkContainerRequestPolicies) :
    Option String :=
  match networkContainerRequestPolicy with
  | none => none
  | some policy =>
    if strings.EqualFold unicodeFold policy.PolicyType "ACLPolicy" &&
        strings.EqualFold unicodeFold policy.EndpointType "APIPA" then
      match Unmarshal policy.Settings with
      | .error err =>
        some ("ACL policy failed to pass validation with error: " ++ err ++ " ")
      | .ok requestedAclPolicy =>
        if strings.len (strings.TrimSpace requestedAclPolicy.Action) == 0 then
          some "Action field cannot be empty in ACL Policy"
        else if !strings.EqualFold unicodeFold requestedAclPolicy.Action ActionTypeAllow &&
            !strings.EqualFold unicodeFold requestedAclPolicy.Action ActionTypeBlock then
          some "Only Allow or Block is supported in Action field"
        else if strings.len (strings.TrimSpace requestedAclPolicy.Direction) == 0 then
          some "Direction field cannot be empty in ACL Policy"
        else if !strings.EqualFold unicodeFold requestedAclPolicy.Direction DirectionTypeIn &&
            !strings.EqualFold unicodeFold requestedAclPolicy.Direction DirectionTypeOut then
          some "Only In or Out is supported in Direction field"
        else if requestedAclPolicy.Priority == 0 then
          some "Priority field cannot be empty in ACL Policy"
        else none
    else some "Only ACL Policies on APIPA endpoint supported"

/-- The text of an ACL setting that blocks inbound traffic with priority 1. -/
def blockInSettings : String :=
  "\x7b\"Action\":\"Block\",\"Direction\":\"In\",\"Priority\":1\x7d"

/-- A fragment of `json.Unmarshal`: it decodes `blockInSettings`, and reports every
other text as undecodable. -/
def unmarshalBlockIn (data : String) : Except String ValidAclPolicySetting :=
  if data = blockInSettings then
    .ok { Action := "Block", Direction := "In", Priority := 1 }
  else .error "unexpected end of JSON input"

/-- The text of an ACL setting whose action is `Deny`. -/
def denyInSettings : String :=
  "\x7b\"Action\":\"Deny\",\"Direction\":\"In\",\"Priority\":1\x7d"

/-- A fragment of `json.Unmarshal` that decodes `denyInSettings` only. -/
def unmarshalDenyIn (data : String) : Except String ValidAclPolicySetting :=
  if data = denyInSettings then
    .ok { Action := "Deny", Direction := "In", Priority := 1 }
  else .error "unexpected end of JSON input"

/-- The struct `IPSubnet`; `PrefixLength` is a `uint8`. -/
structure IPSubnet where
  IPAddress : String := ""
  PrefixLength : Nat := 0
deriving DecidableEq, Repr

/-- The struct `IPConfiguration`. -/
structure IPConfiguration where
  IPSubnet : cns.IPSubnet := {}
  DNSServers : List String := []
  GatewayIPAddress : String := ""
deriving DecidableEq, Repr

/-- The struct `Route`. -/
structure Route where
  IPAddress : String := ""
  GatewayIPAddress : String := ""
  InterfaceToUse : String := ""
deriving DecidableEq, Repr

/-- The struct `MultiTenancyInfo`. -/
structure MultiTenancyInfo where
  EncapType : String := ""
  ID : Int := 0
deriving DecidableEq, Repr

/-- The struct `Response` of package `cns`. Its declaration is in a file of the
package that is not among the sources; the client reads its fields `ReturnCode`
(an `int`) and `Message`. -/
structure Response where
  ReturnCode : Int := 0
  Message : String := ""
deriving DecidableEq, Repr

/-- The struct `GetNetworkContainerRequest`; the raw JSON of `OrchestratorContext`
is kept as text. -/
structure GetNetworkContainerRequest where
  NetworkContainerid : String := ""
  OrchestratorContext : String := ""
deriving DecidableEq, Repr

/-- The struct `GetNetworkContainerResponse`. -/
structure GetNetworkContainerResponse where
  NetworkContainerID : String := ""
  IPConfiguration : cns.IPConfiguration := {}
  Routes : List cns.Route := []
  CnetAddressSpace : List cns.IPSubnet := []
  MultiTenancyInfo : cns.MultiTenancyInfo := {}
  PrimaryInterfaceIdentifier : String := ""
  LocalIPConfiguration : cns.IPConfiguration := {}
  Response : cns.Response := {}
  AllowHostToNCCommunication : Bool := false
  AllowNCToHostCommunication : Bool := false
deriving DecidableEq, Repr

end cns

/-! ## `cns/cnsclient/cnsclient.go` -/

namespace cnsclient

/-- The struct `CNSClient`. A client is never written to after its creation, so a
pointer to a client is embedded as the client it points to. -/
structure CNSClient where
  connectionURL : String
deriving DecidableEq, Repr

def defaultCnsURL : String := "http://localhost:10090"

def contentTypeJSON : String := "application/json"

/-- Go `http.StatusOK`. -/
def StatusOK : Int := 200

/-- The struct `CNSClientError` of the package, built in the source by position as
`CNSClientError{code, err}`: a return code and the error it wraps, kept as its
message. -/
structure CNSClientError where
  Code : Int
  Err : String
deriving DecidableEq, Repr

/-- The function `InitCnsClient`. The package variable `cnsClient` is passed in and
its new value is the second component of the result; the first component is the
returned pair of client and error. -/
def InitCnsClient (url : String) (cnsClient : Option CNSClient) :
    (Option CNSClient × Option CNSClientError) × Option CNSClient :=
  match cnsClient with
  | none =>
    let url := if url = "" then defaultCnsURL else url
    let cnsClient := some { connectionURL := url : CNSClient }
    ((cnsClient, none), cnsClient)
  | some c => ((some c, none), some c)

/-- The function `GetCnsClient`, reading the package variable `cnsClient`;
`UnexpectedError` is the constant `restserver.UnexpectedError`. -/
def GetCnsClient (UnexpectedError : Int) (cnsClient : Option CNSClient) :
    Option CNSClient × Option CNSClientError :=
  let err : Option CNSClientError :=
    if cnsClient = none then
      some ⟨UnexpectedError, "[Azure CNSClient] CNS Client not initialized"⟩
    else none
  (cnsClient, err)

/-- The package variable `cnsClient` after a run of `InitCnsClient` calls, one for
each URL of the list, from the value `g`. -/
def afterInits (urls : List String) (g : Option CNSClient) : Option CNSClient :=
  urls.foldl (fun g url => (InitCnsClient url g).2) g

/-- An HTTP response as the client reads it: the status code and the body. -/
structure HttpResponse where
  StatusCode : Int
  Body : String
deriving DecidableEq, Repr

/-- What one call of `GetNetworkConfiguration` meets outside the program: the JSON
encoder of the request, the HTTP `Post` (URL, content type, body) and the JSON
decoder of the response body, each failing with the message of its error. -/
structure Transport where
  Encode : cns.GetNetworkContainerRequest → Except String String
  Post : String → String → String → Except String HttpResponse
  Decode : String → Except String cns.GetNetworkContainerResponse

/-- The method `CNSClient.GetNetworkConfiguration`; `UnexpectedError` is the
constant `restserver.UnexpectedError`, and `Errorf` is `fmt.Errorf` called with its
format string alone, which gives the message of the error it builds (the format with
its `%` verbs rewritten). The result is the returned pair of response pointer and
error. -/
def GetNetworkConfiguration (UnexpectedError : Int) (Errorf : String → String)
    (world : Transport)
    (cnsClient : CNSClient) (orchestratorContext : String) :
    Option cns.GetNetworkContainerResponse × Option CNSClientError :=
  let url := cnsClient.connectionURL ++ cns.GetNetworkContainerByOrchestratorContext
  let payload : cns.GetNetworkContainerRequest :=
    { OrchestratorContext := orchestratorContext }
  match world.Encode payload with
  | .error err => (none, some ⟨UnexpectedError, err⟩)
  | .ok body =>
    match world.Post url contentTypeJSON body with
    | .error err => (none, some ⟨UnexpectedError, err⟩)
    | .ok res =>
      if res.StatusCode ≠ StatusOK then
        let errMsg :=
          "[Azure CNSClient] GetNetworkConfiguration invalid http status code: " ++
            toString res.StatusCode
        (none, some ⟨UnexpectedError, Errorf errMsg⟩)
      else
        match world.Decode res.Body with
        | .error err => (none, some ⟨UnexpectedError, err⟩)
        | .ok resp =>
          if resp.Response.ReturnCode ≠ 0 then
            (none, some ⟨resp.Response.ReturnCode, Errorf resp.Response.Message⟩)
          else (some resp, none)

/-- The server of a call, as the claim about `GetNetworkConfiguration` speaks of it:
the decoded answer when the request was encoded, the `Post` to the route
`GetNetworkContainerByOrchestratorContext` under the connection URL succeeded with
status 200 and the body decoded, and nothing otherwise. -/
def serverAnswer (world : Transport) (cnsClient : CNSClient) (orchestratorContext : String) :
    Option cns.GetNetworkContainerResponse :=
  match world.Encode { OrchestratorContext := orchestratorContext } with
  | .error _ => none
  | .ok body =>
    match world.Post
        (cnsClient.connectionURL ++ "/network/getnetworkcontainerbyorchestratorcontext")
        "application/json" body with
    | .error _ => none
    | .ok res =>
      if res.StatusCode = 200 then
        match world.Decode res.Body with
        | .error _ => none
        | .ok resp => some resp
      else none

end cnsclient

/-! ## The namespace part of the NPM entity cache

`npm/namespace_test.go` drives `AddNamespace`, `UpdateNamespace` and
`DeleteNamespace` of a `NetworkPolicyManager`; the file that defines them is not
among the sources, so they are modelled from the specification (sections 3, 4.1,
4.5, 8 and 9). -/

namespace npm

/-- A Go `map[string]V` as an association list: a key is bound to the value of its
first entry. -/
abbrev GoMap (V : Type) := List (String × V)

/-- The lookup `m[k]`, `none` when the key is absent. -/
def GoMap.get {V : Type} : GoMap V → String → Option V
  | [], _ => none
  | (k', v) :: t, k => if k' = k then some v else GoMap.get t k

/-- The statement `delete(m, k)`. -/
def GoMap.delete {V : Type} (m : GoMap V) (k : String) : GoMap V :=
  m.filter (fun p => p.1 ≠ k)

/-- The assignment `m[k] = v`. -/
def GoMap.set {V : Type} (m : GoMap V) (k : String) (v : V) : GoMap V :=
  (k, v) :: GoMap.delete m k

/-- The entries a `range` loop over the map visits: the keys with the values they
are bound to. -/
def GoMap.range (m : GoMap String) : List (String × String) :=
  m.filter (fun p => GoMap.get m p.1 = some p.2)

/-- A label mapping, from keys to values. -/
abbrev Labels := GoMap String

/-- Modelled from the spec: the constant `util.KubeAllNamespacesFlag`, the cache key
of the synthetic "all namespaces" pseudo-namespace of section 3; package `util` is
not among the sources. -/
def KubeAllNamespacesFlag : String := "all-namespaces"

/-- The cache key of a namespace, written `"ns-"+name` in `namespace_test.go`. -/
def nsKey (name : String) : String := "ns-" ++ name

/-- The namespace object of the orchestrator as the tests build it
(`corev1.Namespace`): the name, the labels and the resource version of its
`ObjectMeta`. -/
structure NamespaceObject where
  Name : String
  Labels : Labels
  ResourceVersion : String := ""
deriving DecidableEq, Repr

/-- Modelled from the spec: the errors of the entity cache named in sections 4.1
and 7. -/
inductive NpmError where
  | NotFoundError
  | AlreadyExistsError
deriving DecidableEq, Repr

/-- Modelled from the spec: the name of a membership set, "derived
deterministically from a label key, or label key=value pair, or namespace name, or
all" (section 3). -/
inductive SetName where
  | all
  | labelKey (key : String)
  | labelKeyValue (key value : String)
  | ofNamespace (name : String)
deriving DecidableEq, Repr

/-- Modelled from the spec: the cache entry `Namespace` of section 3, with its
identity, its label mapping (the field `LabelsMap` read by the tests) and the set of
membership-set names it currently belongs to. -/
structure Namespace where
  name : String
  LabelsMap : Labels
  memberships : List SetName
deriving DecidableEq, Repr

/-- Modelled from the spec: the constructor `newNs` called by the tests, a namespace
entry without labels and memberships. -/
def newNs (name : String) : Namespace :=
  { name := name, LabelsMap := [], memberships := [] }

/-- Modelled from the spec: the part of `NetworkPolicyManager` the namespace
operations work on, the namespace cache `NsMap` and the membership relation of the
Set Store of section 4.2 (which member is in which set). -/
structure NetworkPolicyManager where
  NsMap : GoMap Namespace
  sets : List (SetName × String)
deriving DecidableEq, Repr

/-- The manager the tests start from: `NsMap` holds the entry of the all-namespaces
pseudo-namespace only. -/
def initialManager : NetworkPolicyManager :=
  { NsMap := GoMap.set [] KubeAllNamespacesFlag (newNs KubeAllNamespacesFlag), sets := [] }

/-- Modelled from the spec: `AddMember(setName, member)` of the Set Store. -/
def AddMember (sets : List (SetName × String)) (setName : SetName) (member : String) :
    List (SetName × String) :=
  if (setName, member) ∈ sets then sets else (setName, member) :: sets

/-- Modelled from the spec: `RemoveMember(setName, member)` of the Set Store. -/
def RemoveMember (sets : List (SetName × String)) (setName : SetName) (member : String) :
    List (SetName × String) :=
  sets.filter (fun p => p ≠ (setName, member))

/-- Modelled from the spec: the membership sets a namespace with the given labels
belongs to, the set of all namespaces and, for each label, the set of its key and
the set of its key=value pair (section 3, Membership Set). -/
def derivedSets (labels : Labels) : List SetName :=
  SetName.all ::
    (GoMap.range labels).flatMap (fun p => [SetName.labelKey p.1, SetName.labelKeyValue p.1 p.2])

/-- Modelled from the spec: `AddNamespace(ns)` of section 4.1. It fails with
`AlreadyExistsError` on a duplicate identity and leaves the manager as it was;
otherwise it makes the namespace a member of its derived sets and stores the entry
under its key. The result is the manager after the call and the returned error. -/
def AddNamespace (nsObj : NamespaceObject) (npMgr : NetworkPolicyManager) :
    NetworkPolicyManager × Option NpmError :=
  let nsName := nsKey nsObj.Name
  match GoMap.get npMgr.NsMap nsName with
  | some _ => (npMgr, some NpmError.AlreadyExistsError)
  | none =>
    let memberships := derivedSets nsObj.Labels
    let ns : Namespace :=
      { newNs nsName with LabelsMap := nsObj.Labels, memberships := memberships }
    ({ NsMap := GoMap.set npMgr.NsMap nsName ns,
       sets := memberships.foldl (fun s setName => AddMember s setName nsName) npMgr.sets },
     none)

/-- Modelled from the spec: `DeleteNamespace(ns)` of section 4.1. It fails with
`NotFoundError` when the identity is absent; otherwise it retracts every set
membership recorded in the entry and destroys the entry (section 3). -/
def DeleteNamespace (nsObj : NamespaceObject) (npMgr : NetworkPolicyManager) :
    NetworkPolicyManager × Option NpmError :=
  let nsName := nsKey nsObj.Name
  match GoMap.get npMgr.NsMap nsName with
  | none => (npMgr, some NpmError.NotFoundError)
  | some ns =>
    ({ NsMap := GoMap.delete npMgr.NsMap nsName,
       sets := ns.memberships.foldl (fun s setName => RemoveMember s setName nsName) npMgr.sets },
     none)

/-- Modelled from the spec: the label delta of section 9, "a pure set-difference
function over two label mappings". The first component holds the labels to add (the
entries of `new` that `old` does not hold: added keys and changed values), the
second the labels to remove (the entries of `old` that `new` does not hold: removed
keys and changed values). -/
def labelDelta (old new : Labels) : List (String × String) × List (String × String) :=
  ((GoMap.range new).filter (fun p => GoMap.get old p.1 ≠ some p.2),
   (GoMap.range old).filter (fun p => GoMap.get new p.1 ≠ some p.2))

/-- Modelled from the spec: the membership sets to leave for the removed labels, the
key=value set of each and the key set when the key itself is gone. -/
def setsToLeave (new : Labels) (toRemove : List (String × String)) : List SetName :=
  toRemove.flatMap (fun p =>
    SetName.labelKeyValue p.1 p.2 ::
      (if GoMap.get new p.1 = none then [SetName.labelKey p.1] else []))

/-- Modelled from the spec: the membership sets to join for the added labels, the
key=value set of each and the key set when the key is a new one. -/
def setsToJoin (old : Labels) (toAdd : List (String × String)) : List SetName :=
  toAdd.flatMap (fun p =>
    SetName.labelKeyValue p.1 p.2 ::
      (if GoMap.get old p.1 = none then [SetName.labelKey p.1] else []))

/-- Modelled from the spec: `UpdateNamespace(old, new)` of section 4.1. It fails
with `NotFoundError` when the identity of `old` is absent. When the update changes
the identity, the old namespace is deleted and the new one added (the net effect of
the rename scenario of section 8). Otherwise the label delta between the cached and
the new labels is applied to the cached label mapping, removals first, and the
matching membership operations are emitted. -/
def UpdateNamespace (oldNsObj newNsObj : NamespaceObject) (npMgr : NetworkPolicyManager) :
    NetworkPolicyManager × Option NpmError :=
  let oldNsName := nsKey oldNsObj.Name
  let newNsName := nsKey newNsObj.Name
  if oldNsName ≠ newNsName then
    match DeleteNamespace oldNsObj npMgr with
    | (npMgr, some err) => (npMgr, some err)
    | (npMgr, none) => AddNamespace newNsObj npMgr
  else
    match GoMap.get npMgr.NsMap newNsName with
    | none => (npMgr, some NpmError.NotFoundError)
    | some curNs =>
      let (toAdd, toRemove) := labelDelta curNs.LabelsMap newNsObj.Labels
      let leave := setsToLeave newNsObj.Labels toRemove
      let join := setsToJoin curNs.LabelsMap toAdd
      let labels := toRemove.foldl (fun m p => GoMap.delete m p.1) curNs.LabelsMap
      let labels := toAdd.foldl (fun m p => GoMap.set m p.1 p.2) labels
      let ns : Namespace :=
        { curNs with
          LabelsMap := labels,
          memberships := curNs.memberships.filter (fun s => s ∉ leave) ++ join }
      let sets := leave.foldl (fun s setName => RemoveMember s setName newNsName) npMgr.sets
      let sets := join.foldl (fun s setName => AddMember s setName newNsName) sets
      ({ NsMap := GoMap.set npMgr.NsMap newNsName ns, sets := sets }, none)

end npm

/-! ## Lemmas and theorems -/

namespace strings

theorem len_eq_zero_iff (s : String) : len s = 0 ↔ s.data = [] := by
  cases s with
  | mk d =>
    cases d with
    | nil => simp [len, String.utf8ByteSize, String.utf8ByteSize.go]
    | cons c cs =>
      have := Char.utf8Size_pos c
      simp [len, String.utf8ByteSize, String.utf8ByteSize.go]
      omega

theorem isSpace_false_of_foldRune (tbl : Char → Char → Bool) (sr tr : Char)
    (hl : (0x41 ≤ tr.toNat ∧ tr.toNat ≤ 0x5A) ∨ (0x61 ≤ tr.toNat ∧ tr.toNat ≤ 0x7A))
    (h : foldRune tbl sr tr = true) : IsSpace sr = false := by
  unfold foldRune at h
  by_cases e : tr = sr
  · subst e
    simp [IsSpace]
    omega
  · rw [if_neg e] at h
    simp only at h
    by_cases c : tr.toNat < sr.toNat
    · simp only [c, if_true] at h
      split_ifs at h with h1 h2
      · simp at h
        simp [IsSpace]
        omega
      · simp at h
        simp [IsSpace]
        omega
      · omega
    · simp only [c, if_false] at h
      split_ifs at h with h1 h2
      · simp at h
        simp [IsSpace]
        omega
      · omega
      · omega

theorem trimSpace_len_ne_zero (s : String) (c : Char) (cs : List Char)
    (hs : s.data = c :: cs) (hc : IsSpace c = false) : len (TrimSpace s) ≠ 0 := by
  rw [Ne, len_eq_zero_iff]
  simp only [TrimSpace, hs]
  rw [List.dropWhile_cons_of_neg (by simp [hc])]
  simp only [List.reverse_eq_nil_iff, List.dropWhile_eq_nil_iff, not_forall]
  exact ⟨c, by simp, by simp [hc]⟩

theorem trimSpace_len_ne_zero_of_equalFold (tbl : Char → Char → Bool) (s t : String)
    (c : Char) (cs : List Char) (ht : t.data = c :: cs)
    (hl : (0x41 ≤ c.toNat ∧ c.toNat ≤ 0x5A) ∨ (0x61 ≤ c.toNat ∧ c.toNat ≤ 0x7A))
    (h : EqualFold tbl s t = true) : len (TrimSpace s) ≠ 0 := by
  unfold EqualFold at h
  rw [ht] at h
  cases hd : s.data with
  | nil => rw [hd] at h; simp [equalFoldRunes] at h
  | cons a as =>
    rw [hd] at h
    simp only [equalFoldRunes, Bool.and_eq_true] at h
    exact trimSpace_len_ne_zero s a as hd (isSpace_false_of_foldRune tbl a c hl h.1)

end strings

namespace npm

theorem GoMap.get_delete {V : Type} (m : GoMap V) (k k' : String) :
    GoMap.get (GoMap.delete m k) k' = if k = k' then none else GoMap.get m k' := by
  induction m with
  | nil => simp [GoMap.delete, GoMap.get]
  | cons p t ih =>
    obtain ⟨a, v⟩ := p
    simp only [GoMap.delete] at ih ⊢
    by_cases h : a = k
    · subst h
      simp only [List.filter, ne_eq, not_true_eq_false, decide_False, GoMap.get, ih]
      split_ifs <;> rfl
    · simp only [List.filter, ne_eq, h, not_false_eq_true, decide_True, GoMap.get, ih]
      by_cases h2 : a = k'
      · subst h2
        simp [Ne.symm h]
      · simp [h2]

theorem GoMap.get_set {V : Type} (m : GoMap V) (k k' : String) (v : V) :
    GoMap.get (GoMap.set m k v) k' = if k = k' then some v else GoMap.get m k' := by
  simp only [GoMap.set, GoMap.get, GoMap.get_delete]
  split_ifs <;> rfl

theorem GoMap.mem_of_get {V : Type} (m : GoMap V) (k : String) (v : V)
    (h : GoMap.get m k = some v) : (k, v) ∈ m := by
  induction m with
  | nil => simp [GoMap.get] at h
  | cons p t ih =>
    obtain ⟨a, w⟩ := p
    simp only [GoMap.get] at h
    by_cases e : a = k
    · simp only [e, if_true, Option.some.injEq] at h
      simp [e, h]
    · simp only [e, if_false] at h
      exact List.mem_cons_of_mem _ (ih h)

theorem GoMap.mem_range (m : GoMap String) (p : String × String) :
    p ∈ GoMap.range m ↔ GoMap.get m p.1 = some p.2 := by
  simp only [GoMap.range, List.mem_filter, decide_eq_true_eq]
  exact ⟨fun h => h.2, fun h => ⟨GoMap.mem_of_get m p.1 p.2 h, h⟩⟩

theorem GoMap.get_foldl_delete {V : Type} (ps : List (String × String)) (m : GoMap V)
    (k : String) :
    GoMap.get (ps.foldl (fun m p => GoMap.delete m p.1) m) k =
      if k ∈ ps.map Prod.fst then none else GoMap.get m k := by
  induction ps generalizing m with
  | nil => simp
  | cons p t ih =>
    simp only [List.foldl_cons, ih, GoMap.get_delete, List.map_cons, List.mem_cons]
    by_cases h1 : k ∈ t.map Prod.fst
    · simp [h1]
    · by_cases h2 : p.1 = k
      · simp [h2]
      · simp [h1, h2, Ne.symm h2]

theorem GoMap.get_foldl_set (f : String → Option String) (ps : List (String × String))
    (hps : ∀ p ∈ ps, f p.1 = some p.2) (m : GoMap String) (k : String) :
    GoMap.get (ps.foldl (fun m p => GoMap.set m p.1 p.2) m) k =
      if k ∈ ps.map Prod.fst then f k else GoMap.get m k := by
  induction ps generalizing m with
  | nil => simp
  | cons p t ih =>
    have ht : ∀ q ∈ t, f q.1 = some q.2 := fun q hq => hps q (List.mem_cons_of_mem _ hq)
    simp only [List.foldl_cons, ih ht, GoMap.get_set, List.map_cons, List.mem_cons]
    by_cases h1 : k ∈ t.map Prod.fst
    · simp [h1]
    · by_cases h2 : p.1 = k
      · have := hps p (List.mem_cons_self _ _)
        simp [h2] at this
        simp [h2, this]
      · simp [h1, h2, Ne.symm h2]

/-- Applying the label delta to the cached labels, removals first, gives the new
label mapping. -/
theorem get_labelDelta_apply (old new : Labels) (k : String) :
    GoMap.get
      ((labelDelta old new).1.foldl (fun m p => GoMap.set m p.1 p.2)
        ((labelDelta old new).2.foldl (fun m p => GoMap.delete m p.1) old)) k =
      GoMap.get new k := by
  have hadd : ∀ p ∈ (labelDelta old new).1, GoMap.get new p.1 = some p.2 := by
    intro p hp
    simp only [labelDelta, List.mem_filter] at hp
    exact (GoMap.mem_range new p).1 hp.1
  rw [GoMap.get_foldl_set (GoMap.get new) _ hadd, GoMap.get_foldl_delete]
  by_cases h1 : k ∈ (labelDelta old new).1.map Prod.fst
  · simp [h1]
  · rw [if_neg h1]
    -- `k` is not among the added labels: the old map agrees with the new one at `k`
    -- or the new one has no `k`
    have hnew : ∀ v, GoMap.get new k = some v → GoMap.get old k = some v := by
      intro v hv
      by_contra hne
      apply h1
      simp only [labelDelta, List.mem_map, List.mem_filter]
      exact ⟨(k, v), ⟨(GoMap.mem_range new (k, v)).2 hv, by simpa using hne⟩, rfl⟩
    by_cases h2 : k ∈ (labelDelta old new).2.map Prod.fst
    · rw [if_pos h2]
      simp only [labelDelta, List.mem_map, List.mem_filter] at h2
      obtain ⟨p, ⟨hp1, hp2⟩, rfl⟩ := h2
      have hold := (GoMap.mem_range old p).1 hp1
      cases hn : GoMap.get new p.1 with
      | none => rfl
      | some v =>
        have := hnew v hn
        rw [hold] at this
        simp at hp2
        rw [hn] at hp2
        exact absurd (by rw [Option.some.inj this]) hp2
    · rw [if_neg h2]
      cases ho : GoMap.get old k with
      | none =>
        cases hn : GoMap.get new k with
        | none => rfl
        | some v => rw [hnew v hn] at ho; cases ho
      | some w =>
        cases hn : GoMap.get new k with
        | none =>
          exfalso
          apply h2
          simp only [labelDelta, List.mem_map, List.mem_filter]
          exact ⟨(k, w), ⟨(GoMap.mem_range old (k, w)).2 ho, by simp [hn]⟩, rfl⟩
        | some v => rw [hnew v hn] at ho; exact ho.symm

end npm

namespace npm

theorem nsKey_ne_allNamespaces (n : String) : nsKey n ≠ KubeAllNamespacesFlag := by
  intro h
  have := congrArg String.data h
  simp [nsKey, KubeAllNamespacesFlag] at this

theorem nsKey_injective (a b : String) (h : nsKey a = nsKey b) : a = b := by
  have := congrArg String.data h
  simp [nsKey] at this
  exact String.ext this

theorem get_initialManager_nsKey (n : String) :
    GoMap.get initialManager.NsMap (nsKey n) = none := by
  simp [initialManager, GoMap.get_set, GoMap.get, (nsKey_ne_allNamespaces n).symm]

theorem AddNamespace_of_absent (nsObj : NamespaceObject) (npMgr : NetworkPolicyManager)
    (h : GoMap.get npMgr.NsMap (nsKey nsObj.Name) = none) :
    AddNamespace nsObj npMgr =
      ({ NsMap := GoMap.set npMgr.NsMap (nsKey nsObj.Name)
           { name := nsKey nsObj.Name, LabelsMap := nsObj.Labels,
             memberships := derivedSets nsObj.Labels },
         sets := (derivedSets nsObj.Labels).foldl
           (fun s setName => AddMember s setName (nsKey nsObj.Name)) npMgr.sets }, none) := by
  simp [AddNamespace, h, newNs]

theorem AddNamespace_of_present (nsObj : NamespaceObject) (npMgr : NetworkPolicyManager)
    (ns : Namespace) (h : GoMap.get npMgr.NsMap (nsKey nsObj.Name) = some ns) :
    AddNamespace nsObj npMgr = (npMgr, some NpmError.AlreadyExistsError) := by
  simp [AddNamespace, h]

theorem DeleteNamespace_of_absent (nsObj : NamespaceObject) (npMgr : NetworkPolicyManager)
    (h : GoMap.get npMgr.NsMap (nsKey nsObj.Name) = none) :
    DeleteNamespace nsObj npMgr = (npMgr, some NpmError.NotFoundError) := by
  simp [DeleteNamespace, h]

theorem DeleteNamespace_of_present (nsObj : NamespaceObject) (npMgr : NetworkPolicyManager)
    (ns : Namespace) (h : GoMap.get npMgr.NsMap (nsKey nsObj.Name) = some ns) :
    DeleteNamespace nsObj npMgr =
      ({ NsMap := GoMap.delete npMgr.NsMap (nsKey nsObj.Name),
         sets := ns.memberships.foldl
           (fun s setName => RemoveMember s setName (nsKey nsObj.Name)) npMgr.sets }, none) := by
  simp [DeleteNamespace, h]

theorem mem_foldl_AddMember (ss : List SetName) (key : String) (sets : List (SetName × String))
    (p : SetName × String) :
    p ∈ ss.foldl (fun s setName => AddMember s setName key) sets ↔
      p ∈ sets ∨ (p.2 = key ∧ p.1 ∈ ss) := by
  induction ss generalizing sets with
  | nil => simp
  | cons a t ih =>
    simp only [List.foldl_cons, ih, List.mem_cons]
    have : p ∈ AddMember sets a key ↔ p ∈ sets ∨ p = (a, key) := by
      unfold AddMember
      split_ifs with h
      · constructor
        · exact Or.inl
        · rintro (h1 | h1)
          · exact h1
          · rw [h1]; exact h
      · simp [List.mem_cons, or_comm]
    rw [this]
    obtain ⟨p1, p2⟩ := p
    simp only [Prod.mk.injEq]
    tauto

theorem mem_foldl_RemoveMember (ss : List SetName) (key : String)
    (sets : List (SetName × String)) (p : SetName × String) :
    p ∈ ss.foldl (fun s setName => RemoveMember s setName key) sets ↔
      p ∈ sets ∧ ¬ (p.2 = key ∧ p.1 ∈ ss) := by
  induction ss generalizing sets with
  | nil => simp
  | cons a t ih =>
    rw [List.foldl_cons, ih]
    simp only [List.mem_cons, RemoveMember, List.mem_filter, decide_eq_true_eq]
    obtain ⟨p1, p2⟩ := p
    simp only [ne_eq, Prod.mk.injEq]
    tauto

/-- C1: from the cache that holds the all-namespaces pseudo-namespace only,
`AddNamespace` of `(n, Lold)` and then `UpdateNamespace` from `(n, Lold)` to
`(n, Lnew)`, whatever the two resource versions, both return no error, and the entry
then cached under `"ns-" ++ n` has the label mapping `Lnew`: each key is bound in it
exactly as in `Lnew`, so removed keys are gone, changed values are replaced and added
keys are present. -/
theorem AddNamespace_UpdateNamespace_labels (n : String) (Lold Lnew : Labels)
    (rvOld rvNew : String) :
    (AddNamespace ⟨n, Lold, rvOld⟩ initialManager).2 = none ∧
    (UpdateNamespace ⟨n, Lold, rvOld⟩ ⟨n, Lnew, rvNew⟩
      (AddNamespace ⟨n, Lold, rvOld⟩ initialManager).1).2 = none ∧
    ∃ ns : Namespace,
      GoMap.get (UpdateNamespace ⟨n, Lold, rvOld⟩ ⟨n, Lnew, rvNew⟩
        (AddNamespace ⟨n, Lold, rvOld⟩ initialManager).1).1.NsMap ("ns-" ++ n) = some ns ∧
      ∀ k, GoMap.get ns.LabelsMap k = GoMap.get Lnew k := by
  rw [AddNamespace_of_absent _ _ (get_initialManager_nsKey n)]
  refine ⟨rfl, ?_⟩
  have hk : "ns-" ++ n = nsKey n := rfl
  rw [hk]
  simp only [UpdateNamespace, ne_eq, not_true_eq_false, if_false, GoMap.get_set, if_true]
  refine ⟨trivial, _, rfl, ?_⟩
  intro k
  exact get_labelDelta_apply Lold Lnew k

theorem UpdateNamespace_rename_eq (oldNsObj newNsObj : NamespaceObject)
    (npMgr : NetworkPolicyManager) (ns : Namespace)
    (hne : nsKey oldNsObj.Name ≠ nsKey newNsObj.Name)
    (hold : GoMap.get npMgr.NsMap (nsKey oldNsObj.Name) = some ns) :
    UpdateNamespace oldNsObj newNsObj npMgr =
      AddNamespace newNsObj (DeleteNamespace oldNsObj npMgr).1 := by
  simp only [UpdateNamespace, ne_eq, hne, not_false_eq_true, if_true]
  rw [DeleteNamespace_of_present _ _ ns hold]

/-- C2: for distinct names `a` and `b`, from the cache that holds the all-namespaces
pseudo-namespace only, `AddNamespace` of `(a, La)` and then `UpdateNamespace` from
`(a, La)` to `(b, Lb)` both return no error; afterwards the entry cached under
`"ns-" ++ b` has the label mapping `Lb`, no membership set has the namespace `a` as
a member, and the cache has no entry for `a`. -/
theorem AddNamespace_UpdateNamespace_rename (a b : String) (La Lb : Labels)
    (rva rvb : String) (hab : a ≠ b) :
    (AddNamespace ⟨a, La, rva⟩ initialManager).2 = none ∧
    (UpdateNamespace ⟨a, La, rva⟩ ⟨b, Lb, rvb⟩
      (AddNamespace ⟨a, La, rva⟩ initialManager).1).2 = none ∧
    (∃ ns : Namespace,
      GoMap.get (UpdateNamespace ⟨a, La, rva⟩ ⟨b, Lb, rvb⟩
        (AddNamespace ⟨a, La, rva⟩ initialManager).1).1.NsMap ("ns-" ++ b) = some ns ∧
      ns.LabelsMap = Lb) ∧
    (∀ setName : SetName,
      (setName, "ns-" ++ a) ∉ (UpdateNamespace ⟨a, La, rva⟩ ⟨b, Lb, rvb⟩
        (AddNamespace ⟨a, La, rva⟩ initialManager).1).1.sets) ∧
    GoMap.get (UpdateNamespace ⟨a, La, rva⟩ ⟨b, Lb, rvb⟩
      (AddNamespace ⟨a, La, rva⟩ initialManager).1).1.NsMap ("ns-" ++ a) = none := by
  have hka : "ns-" ++ a = nsKey a := rfl
  have hkb : "ns-" ++ b = nsKey b := rfl
  have hne : nsKey a ≠ nsKey b := fun h => hab (nsKey_injective a b h)
  rw [hka, hkb, AddNamespace_of_absent _ _ (get_initialManager_nsKey a)]
  refine ⟨rfl, ?_⟩
  rw [UpdateNamespace_rename_eq _ _ _ _ hne (by rw [GoMap.get_set, if_pos rfl]),
    DeleteNamespace_of_present _ _ _ (by rw [GoMap.get_set, if_pos rfl]),
    AddNamespace_of_absent _ _ (by
      simp [GoMap.get_set, GoMap.get_delete, hne, get_initialManager_nsKey])]
  refine ⟨rfl, ⟨_, by rw [GoMap.get_set, if_pos rfl], rfl⟩, ?_, ?_⟩
  · intro setName hmem
    simp only [mem_foldl_AddMember, mem_foldl_RemoveMember, initialManager,
      List.not_mem_nil, false_or] at hmem
    rcases hmem with h | h
    · exact h.2 h.1
    · exact hne h.1
  · simp [GoMap.get_set, GoMap.get_delete, hne.symm]

/-- The witness of C2 on the two namespaces of `TestUpdateNamespace`. -/
theorem AddNamespace_UpdateNamespace_rename_witness :
    "old-test-namespace" ≠ "new-test-namespace" ∧
    ((AddNamespace ⟨"old-test-namespace", [("app", "old-test-namespace")], ""⟩ initialManager).2 = none ∧
    (UpdateNamespace ⟨"old-test-namespace", [("app", "old-test-namespace")], ""⟩
        ⟨"new-test-namespace", [("app", "new-test-namespace")], ""⟩
        (AddNamespace ⟨"old-test-namespace", [("app", "old-test-namespace")], ""⟩ initialManager).1).2 = none ∧
    (∃ ns : Namespace,
      GoMap.get (UpdateNamespace ⟨"old-test-namespace", [("app", "old-test-namespace")], ""⟩
        ⟨"new-test-namespace", [("app", "new-test-namespace")], ""⟩
        (AddNamespace ⟨"old-test-namespace", [("app", "old-test-namespace")], ""⟩ initialManager).1).1.NsMap
        ("ns-" ++ "new-test-namespace") = some ns ∧
      ns.LabelsMap = [("app", "new-test-namespace")]) ∧
    (∀ setName : SetName,
      (setName, "ns-" ++ "old-test-namespace") ∉ (UpdateNamespace ⟨"old-test-namespace", [("app", "old-test-namespace")], ""⟩
        ⟨"new-test-namespace", [("app", "new-test-namespace")], ""⟩
        (AddNamespace ⟨"old-test-namespace", [("app", "old-test-namespace")], ""⟩ initialManager).1).1.sets) ∧
    GoMap.get (UpdateNamespace ⟨"old-test-namespace", [("app", "old-test-namespace")], ""⟩
        ⟨"new-test-namespace", [("app", "new-test-namespace")], ""⟩
        (AddNamespace ⟨"old-test-namespace", [("app", "old-test-namespace")], ""⟩ initialManager).1).1.NsMap
      ("ns-" ++ "old-test-namespace") = none) :=
  ⟨by decide,
   AddNamespace_UpdateNamespace_rename "old-test-namespace" "new-test-namespace"
      [("app", "old-test-namespace")] [("app", "new-test-namespace")] "" "" (by decide)⟩

/-- C3: from the cache that holds the all-namespaces pseudo-namespace only,
`AddNamespace` and then `DeleteNamespace` of the same namespace object both return
no error; afterwards the cache has no entry under `"ns-" ++ nsObj.Name`, and the
entry of the all-namespaces pseudo-namespace is still there. -/
theorem AddNamespace_DeleteNamespace (nsObj : NamespaceObject) :
    (AddNamespace nsObj initialManager).2 = none ∧
    (DeleteNamespace nsObj (AddNamespace nsObj initialManager).1).2 = none ∧
    GoMap.get (DeleteNamespace nsObj (AddNamespace nsObj initialManager).1).1.NsMap
      ("ns-" ++ nsObj.Name) = none ∧
    GoMap.get (DeleteNamespace nsObj (AddNamespace nsObj initialManager).1).1.NsMap
      KubeAllNamespacesFlag = some (newNs KubeAllNamespacesFlag) := by
  have hk : "ns-" ++ nsObj.Name = nsKey nsObj.Name := rfl
  rw [hk, AddNamespace_of_absent _ _ (get_initialManager_nsKey nsObj.Name),
    DeleteNamespace_of_present _ _ _ (by rw [GoMap.get_set, if_pos rfl])]
  refine ⟨rfl, rfl, by simp [GoMap.get_delete], ?_⟩
  simp [GoMap.get_delete, GoMap.get_set, nsKey_ne_allNamespaces, initialManager]

/-- C4: in every cache state, `AddNamespace` returns no error exactly when the
identity of the namespace is absent from the cache and `AlreadyExistsError` exactly
when it is present; `UpdateNamespace` returns `NotFoundError` exactly when the
identity of the namespace being updated is absent, and `DeleteNamespace` returns
`NotFoundError` exactly when the identity of the namespace being deleted is
absent. -/
theorem namespace_identity_errors (npMgr : NetworkPolicyManager)
    (nsObj oldNsObj newNsObj : NamespaceObject) :
    ((AddNamespace nsObj npMgr).2 = none ↔
      GoMap.get npMgr.NsMap ("ns-" ++ nsObj.Name) = none) ∧
    ((AddNamespace nsObj npMgr).2 = some NpmError.AlreadyExistsError ↔
      GoMap.get npMgr.NsMap ("ns-" ++ nsObj.Name) ≠ none) ∧
    ((UpdateNamespace oldNsObj newNsObj npMgr).2 = some NpmError.NotFoundError ↔
      GoMap.get npMgr.NsMap ("ns-" ++ oldNsObj.Name) = none) ∧
    ((DeleteNamespace nsObj npMgr).2 = some NpmError.NotFoundError ↔
      GoMap.get npMgr.NsMap ("ns-" ++ nsObj.Name) = none) := by
  have hk : ∀ n : String, "ns-" ++ n = nsKey n := fun _ => rfl
  simp only [hk]
  refine ⟨?_, ?_, ?_, ?_⟩
  · cases h : GoMap.get npMgr.NsMap (nsKey nsObj.Name) with
    | none => simp [AddNamespace_of_absent _ _ h]
    | some ns => simp [AddNamespace_of_present _ _ ns h]
  · cases h : GoMap.get npMgr.NsMap (nsKey nsObj.Name) with
    | none => simp [AddNamespace_of_absent _ _ h]
    | some ns => simp [AddNamespace_of_present _ _ ns h]
  · cases h : GoMap.get npMgr.NsMap (nsKey oldNsObj.Name) with
    | none =>
      by_cases hne : nsKey oldNsObj.Name = nsKey newNsObj.Name
      · have h2 := h
        rw [hne] at h2
        simp [UpdateNamespace, hne, h2]
      · simp [UpdateNamespace, hne, DeleteNamespace_of_absent _ _ h]
    | some ns =>
      by_cases hne : nsKey oldNsObj.Name = nsKey newNsObj.Name
      · have h2 := h
        rw [hne] at h2
        simp [UpdateNamespace, hne, h2]
      · rw [UpdateNamespace_rename_eq _ _ _ ns hne h]
        cases h2 : GoMap.get (DeleteNamespace oldNsObj npMgr).1.NsMap (nsKey newNsObj.Name) with
        | none => simp [AddNamespace_of_absent _ _ h2]
        | some ns2 => simp [AddNamespace_of_present _ _ ns2 h2]
  · cases h : GoMap.get npMgr.NsMap (nsKey nsObj.Name) with
    | none => simp [DeleteNamespace_of_absent _ _ h]
    | some ns => simp [DeleteNamespace_of_present _ _ ns h]

end npm

namespace cns

/-- C5: `Validate` returns nil exactly when the policy pointer is nil, or `Type`
equals "ACLPolicy" and `EndpointType` equals "APIPA" ignoring case, `Settings`
decodes into a `ValidAclPolicySetting` whose `Action` equals "Allow" or "Block"
ignoring case, whose `Direction` equals "In" or "Out" ignoring case and whose
`Priority` is not 0; in every other case it returns an error. -/
theorem Validate_eq_none_iff (unicodeFold : Char → Char → Bool)
    (Unmarshal : String → Except String ValidAclPolicySetting)
    (p : Option NetworkContainerRequestPolicies) :
    (Validate unicodeFold Unmarshal p = none ↔
      (p = none ∨ ∃ policy, p = some policy ∧
        strings.EqualFold unicodeFold policy.PolicyType "ACLPolicy" = true ∧
        strings.EqualFold unicodeFold policy.EndpointType "APIPA" = true ∧
        ∃ s, Unmarshal policy.Settings = .ok s ∧
          (strings.EqualFold unicodeFold s.Action "Allow" = true ∨
            strings.EqualFold unicodeFold s.Action "Block" = true) ∧
          (strings.EqualFold unicodeFold s.Direction "In" = true ∨
            strings.EqualFold unicodeFold s.Direction "Out" = true) ∧
          s.Priority ≠ 0)) ∧
    (Validate unicodeFold Unmarshal p ≠ none ↔
      ∃ err, Validate unicodeFold Unmarshal p = some err) := by
  refine ⟨?_, Option.ne_none_iff_exists'⟩
  cases p with
  | none => simp [Validate]
  | some policy =>
    simp only [Validate, Bool.and_eq_true, false_or, Option.some.injEq, exists_eq_left',
      reduceCtorEq]
    by_cases ht : strings.EqualFold unicodeFold policy.PolicyType "ACLPolicy" = true ∧
        strings.EqualFold unicodeFold policy.EndpointType "APIPA" = true
    · rw [if_pos ht]
      cases hu : Unmarshal policy.Settings with
      | error err => simp
      | ok s =>
        have hA : strings.EqualFold unicodeFold s.Action "Allow" = true ∨
            strings.EqualFold unicodeFold s.Action "Block" = true →
            ¬ ((strings.len (strings.TrimSpace s.Action) == 0) = true) := by
          intro h
          rw [beq_iff_eq]
          rcases h with h | h
          · exact strings.trimSpace_len_ne_zero_of_equalFold unicodeFold _ "Allow" _ _ rfl
              (by decide) h
          · exact strings.trimSpace_len_ne_zero_of_equalFold unicodeFold _ "Block" _ _ rfl
              (by decide) h
        have hD : strings.EqualFold unicodeFold s.Direction "In" = true ∨
            strings.EqualFold unicodeFold s.Direction "Out" = true →
            ¬ ((strings.len (strings.TrimSpace s.Direction) == 0) = true) := by
          intro h
          rw [beq_iff_eq]
          rcases h with h | h
          · exact strings.trimSpace_len_ne_zero_of_equalFold unicodeFold _ "In" _ _ rfl
              (by decide) h
          · exact strings.trimSpace_len_ne_zero_of_equalFold unicodeFold _ "Out" _ _ rfl
              (by decide) h
        simp only [ActionTypeAllow, ActionTypeBlock, DirectionTypeIn, DirectionTypeOut,
          Except.ok.injEq, exists_eq_left', ht, true_and]
        constructor
        · intro h
          split_ifs at h with h1 h2 h3 h4 h5
          simp only [Bool.and_eq_true, Bool.not_eq_true', not_and, Bool.not_eq_false] at h2 h4
          refine ⟨?_, ?_, ?_⟩
          · by_cases e : strings.EqualFold unicodeFold s.Action "Allow" = true
            · exact Or.inl e
            · exact Or.inr (h2 (by simpa using e))
          · by_cases e : strings.EqualFold unicodeFold s.Direction "In" = true
            · exact Or.inl e
            · exact Or.inr (h4 (by simpa using e))
          · simpa using h5
        · rintro ⟨ha, hd, hp⟩
          rw [if_neg (hA ha), if_neg, if_neg (hD hd), if_neg, if_neg]
          · simpa using hp
          · rcases hd with h | h <;> simp [h]
          · rcases ha with h | h <;> simp [h]
    · rw [if_neg ht]
      simp only [reduceCtorEq, false_iff, not_exists, not_and]
      intro h1 h2
      exact absurd ⟨h1, h2⟩ ht

end cns

namespace cns

/-- C6, at the failing input: the source comment above the action guard says the
request is denied when the `Action` is not "Allow" or "Deny". The settings with
`Action` "Block", which is neither, decode successfully in a policy of `Type`
"ACLPolicy" and `EndpointType` "APIPA", and `Validate` returns nil, because the guard
compares the action with `ActionTypeBlock`. -/
theorem Validate_Block_accepted :
    unmarshalBlockIn blockInSettings =
      .ok { Action := "Block", Direction := "In", Priority := 1 } ∧
    ("Block" : String) ≠ "Allow" ∧ ("Block" : String) ≠ "Deny" ∧
    Validate (fun _ _ => false) unmarshalBlockIn
      (some ⟨"ACLPolicy", "APIPA", blockInSettings⟩) = none :=
  ⟨rfl, by decide, by decide, by decide⟩

/-- What the action guard of `Validate` does: for a policy of `Type` "ACLPolicy" and
`EndpointType` "APIPA" whose settings decode successfully and whose `Action` equals
neither "Allow" nor "Block" ignoring case, `Validate` returns an error. -/
theorem Validate_rejects_other_actions (unicodeFold : Char → Char → Bool)
    (Unmarshal : String → Except String ValidAclPolicySetting)
    (policy : NetworkContainerRequestPolicies) (s : ValidAclPolicySetting)
    (hType : policy.PolicyType = "ACLPolicy") (hEndpoint : policy.EndpointType = "APIPA")
    (hs : Unmarshal policy.Settings = .ok s)
    (hAllow : strings.EqualFold unicodeFold s.Action "Allow" = false)
    (hBlock : strings.EqualFold unicodeFold s.Action "Block" = false) :
    ∃ err, Validate unicodeFold Unmarshal (some policy) = some err := by
  have h1 : strings.EqualFold unicodeFold "ACLPolicy" "ACLPolicy" = true := rfl
  have h2 : strings.EqualFold unicodeFold "APIPA" "APIPA" = true := rfl
  simp only [Validate, hType, hEndpoint, h1, h2, Bool.and_self, if_true, hs,
    ActionTypeAllow, ActionTypeBlock, hAllow, hBlock, Bool.not_false]
  split_ifs <;> exact ⟨_, rfl⟩

/-- The action guard at settings whose `Action` is "Deny": they are rejected. -/
theorem Validate_rejects_other_actions_witness :
    ∃ err, Validate (fun _ _ => false) unmarshalDenyIn
      (some ⟨"ACLPolicy", "APIPA", denyInSettings⟩) = some err :=
  Validate_rejects_other_actions (fun _ _ => false) unmarshalDenyIn
    ⟨"ACLPolicy", "APIPA", denyInSettings⟩
    { Action := "Deny", Direction := "In", Priority := 1 }
    rfl rfl rfl (by decide) (by decide)

end cns

namespace cnsclient

/-- C7: `GetNetworkConfiguration` returns a response `r` with a nil error exactly
when the `Post` to the route `/network/getnetworkcontainerbyorchestratorcontext`
under the connection URL succeeded with status 200, the body decoded as `r`, and the
`ReturnCode` of `r` is 0. In every other case it returns a nil response and a
`CNSClientError`, whose code is the `ReturnCode` of the response when the server
answered 200 with a decoded response of non-zero `ReturnCode`, and
`UnexpectedError` when there is no such answer. -/
theorem GetNetworkConfiguration_result (UnexpectedError : Int)
    (Errorf : String → String) (world : Transport)
    (cnsClient : CNSClient) (orchestratorContext : String) :
    (∀ r, GetNetworkConfiguration UnexpectedError Errorf world cnsClient orchestratorContext =
        (some r, none) ↔
      (serverAnswer world cnsClient orchestratorContext = some r ∧
        r.Response.ReturnCode = 0)) ∧
    ((∃ r, GetNetworkConfiguration UnexpectedError Errorf world cnsClient orchestratorContext =
        (some r, none)) ∨
      ∃ e, GetNetworkConfiguration UnexpectedError Errorf world cnsClient orchestratorContext =
          (none, some e) ∧
        ((∃ resp, serverAnswer world cnsClient orchestratorContext = some resp ∧
            resp.Response.ReturnCode ≠ 0 ∧ e.Code = resp.Response.ReturnCode) ∨
          (serverAnswer world cnsClient orchestratorContext = none ∧
            e.Code = UnexpectedError))) := by
  cases hE : world.Encode { OrchestratorContext := orchestratorContext } with
  | error err => simp [GetNetworkConfiguration, serverAnswer, hE]
  | ok body =>
    cases hP : world.Post
        (cnsClient.connectionURL ++ "/network/getnetworkcontainerbyorchestratorcontext")
        "application/json" body with
    | error err =>
      simp [GetNetworkConfiguration, serverAnswer, hE, hP,
        cns.GetNetworkContainerByOrchestratorContext, contentTypeJSON]
    | ok res =>
      by_cases hs : res.StatusCode = 200
      · cases hd : world.Decode res.Body with
        | error err =>
          simp [GetNetworkConfiguration, serverAnswer, hE, hP, hs, hd, StatusOK,
            cns.GetNetworkContainerByOrchestratorContext, contentTypeJSON]
        | ok resp =>
          by_cases hr : resp.Response.ReturnCode = 0
          · simp only [GetNetworkConfiguration, serverAnswer, hE, hP, hs, hd, hr, StatusOK,
              cns.GetNetworkContainerByOrchestratorContext, contentTypeJSON, ne_eq,
              not_true_eq_false, if_false, if_true]
            refine ⟨fun r => ?_, Or.inl ⟨resp, rfl⟩⟩
            constructor
            · intro h
              simp only [Prod.mk.injEq, Option.some.injEq, and_true] at h
              subst h
              exact ⟨rfl, hr⟩
            · intro h
              rw [h.1]
          · simp only [GetNetworkConfiguration, serverAnswer, hE, hP, hs, hd, hr, StatusOK,
              cns.GetNetworkContainerByOrchestratorContext, contentTypeJSON, ne_eq,
              not_true_eq_false, not_false_eq_true, if_false, if_true]
            refine ⟨fun r => ?_, Or.inr ⟨_, rfl, Or.inl ⟨resp, rfl, hr, rfl⟩⟩⟩
            constructor
            · intro h
              simp at h
            · intro h
              simp only [Option.some.injEq] at h
              exact absurd (h.1 ▸ h.2) hr
      · simp [GetNetworkConfiguration, serverAnswer, hE, hP, hs, StatusOK,
          cns.GetNetworkContainerByOrchestratorContext, contentTypeJSON]

/-- C8: `GetCnsClient` returns a nil client with a `CNSClientError` of code
`UnexpectedError` exactly when the package variable holds no client, its client is
nil exactly then and its error is non-nil exactly then; no client is held exactly
when no `InitCnsClient` call was made; and after an `InitCnsClient` call
`GetCnsClient` returns a nil error and the client that `InitCnsClient` returned,
which is not nil. -/
theorem GetCnsClient_result (UnexpectedError : Int) (cnsClient : Option CNSClient)
    (url : String) (urls : List String) :
    (GetCnsClient UnexpectedError cnsClient =
        (none, some ⟨UnexpectedError, "[Azure CNSClient] CNS Client not initialized"⟩) ↔
      cnsClient = none) ∧
    ((GetCnsClient UnexpectedError cnsClient).1 = none ↔ cnsClient = none) ∧
    ((GetCnsClient UnexpectedError cnsClient).2 ≠ none ↔ cnsClient = none) ∧
    (afterInits urls none = none ↔ urls = []) ∧
    GetCnsClient UnexpectedError (InitCnsClient url cnsClient).2 =
      ((InitCnsClient url cnsClient).1.1, none) ∧
    (InitCnsClient url cnsClient).1.1 ≠ none := by
  have hsome : ∀ (l : List String) (c : CNSClient), afterInits l (some c) = some c := by
    intro l c
    induction l with
    | nil => rfl
    | cons u t ih => simpa [afterInits, InitCnsClient] using ih
  refine ⟨?_, ?_, ?_, ?_, ?_, ?_⟩
  · cases cnsClient <;> simp [GetCnsClient]
  · cases cnsClient <;> simp [GetCnsClient]
  · cases cnsClient <;> simp [GetCnsClient]
  · cases urls with
    | nil => simp [afterInits]
    | cons u t =>
      have := hsome t { connectionURL := if u = "" then defaultCnsURL else u }
      simp only [afterInits, List.foldl_cons, InitCnsClient] at this ⊢
      simp [this]
  · cases cnsClient <;> simp [GetCnsClient, InitCnsClient]
  · cases cnsClient <;> simp [InitCnsClient]

/-- C9: when no client has been initialised, `InitCnsClient url` returns a nil error
and a new client, which becomes the client of the package; its connection URL is
`url` when `url` is not empty and "http://localhost:10090" when it is. -/
theorem InitCnsClient_first (url : String) :
    InitCnsClient url none =
      ((some ⟨if url = "" then "http://localhost:10090" else url⟩, none),
        some ⟨if url = "" then "http://localhost:10090" else url⟩) := by
  cases h : decide (url = "") <;> simp_all [InitCnsClient, defaultCnsURL]

end cnsclient
